import Mathlib

/-
Shallow embedding of the ledger-relevant part of ursuldaniel/bank-api
(src/internal/storage/storage.go) together with proofs about the claims
of the specification.

Modelling conventions:
- A row of the `accounts` table is reduced to the two columns the ledger
  operations touch: `id` and `balance` (both Go `int`, modelled as `Int`).
- A row of the `transactions` table keeps the columns the code reads and
  writes: the SERIAL `id` (assigned as row count + 1, which is how a fresh
  SERIAL column numbers consecutive inserts), `transaction_type`,
  `from_id`, `to_id`, `amount`.  The `transferred_at` timestamp is not
  modelled (no claim mentions time).
- The Go pattern `rows, _ := Query(...); for rows.Next() { Scan(&x) }`
  keeps the value of the LAST matching row and leaves the Go zero value
  (0) when no row matches; `scanBalanceLoop` reproduces that loop.
- `UPDATE accounts SET balance = $1 WHERE id = $2` rewrites every row
  whose id matches and is a no-op when none does; `updateBalance`
  reproduces that.
- Fallible operations return `Except String` carrying the exact
  `fmt.Errorf` message of the code.
-/

namespace BankApi

/-- One row of the `accounts` table, restricted to the columns the ledger
operations read or write. -/
structure Account where
  id : Int
  balance : Int
deriving DecidableEq

/-- One row of the `transactions` table, as written by `addTransaction`. -/
structure Transaction where
  id : Nat
  transactionType : String
  fromId : Int
  toId : Int
  amount : Int
deriving DecidableEq

/-- models.TransactionResponse: what `ListTransactions`/`GetTransaction`
return to the caller.  `fromId`/`toId` keep the Go zero value 0 unless the
code explicitly sets them (it only does so when `from_id ≠ to_id`). -/
structure TransactionResponse where
  id : Nat
  transactionType : String
  fromId : Int
  toId : Int
  amount : Int
deriving DecidableEq

/-- The persistent state the ledger operations touch: the `accounts` table
and the append-only `transactions` table, in row order. -/
structure Store where
  accounts : List Account
  transactions : List Transaction
deriving DecidableEq

/-- The message of every `fmt.Errorf("invalid amount")` in Deposit,
Withdraw and Transfer — the code uses this one message both for
non-positive amounts and for insufficient funds. -/
def errInvalidAmount : String := "invalid amount"

/-- The message of `fmt.Errorf("access denied")` in GetTransaction. -/
def errAccessDenied : String := "access denied"

/-- The loop `for rows.Next() { rows.Scan(&balance) }` over the result of
`SELECT balance FROM accounts WHERE id = $1`: each matching row overwrites
`balance`, so the last match wins; with no match the accumulator (the Go
zero value 0 at the call sites) is returned. -/
def scanBalanceLoop (rows : List Account) (id : Int) (balance : Int) : Int :=
  match rows with
  | [] => balance
  | a :: rest => scanBalanceLoop rest id (if a.id = id then a.balance else balance)

/-- `SELECT balance FROM accounts WHERE id = $1` followed by the scan loop,
starting from the Go zero value `var balance int`. -/
def selectBalance (accounts : List Account) (id : Int) : Int :=
  scanBalanceLoop accounts id 0

/-- `UPDATE accounts SET balance = $1 WHERE id = $2`: every row whose id
matches gets the new balance; rows with other ids are untouched; updating
an id that matches no row changes nothing. -/
def updateBalance (accounts : List Account) (id : Int) (b : Int) : List Account :=
  accounts.map (fun a => if a.id = id then { a with balance := b } else a)

/-- `addTransaction(conn, transactionType, from, to, amount)`: INSERT one
row into `transactions`; its SERIAL id is the next value of the sequence,
i.e. row count + 1 for a fresh table. -/
def addTransaction (st : Store) (transactionType : String)
    (fromId toId amount : Int) : Store :=
  { st with
    transactions := st.transactions ++
      [{ id := st.transactions.length + 1
         transactionType := transactionType
         fromId := fromId
         toId := toId
         amount := amount }] }

/-- `func (s *PostgresStorage) Deposit(id int, amount int) error`:
reject `amount <= 0`, read the balance, add, write it back
unconditionally, then append a "Deposit" record with from = to = id. -/
def Deposit (st : Store) (id : Int) (amount : Int) : Except String Store :=
  if amount ≤ 0 then .error errInvalidAmount
  else
    let balance := selectBalance st.accounts id
    let balance := balance + amount
    .ok (addTransaction { st with accounts := updateBalance st.accounts id balance }
          "Deposit" id id amount)

/-- `func (s *PostgresStorage) Withdraw(id int, amount int) error`:
reject `amount <= 0`, read the balance, reject `balance < amount` (with
the same "invalid amount" message), subtract, write back, append a
"Withdraw" record with from = to = id. -/
def Withdraw (st : Store) (id : Int) (amount : Int) : Except String Store :=
  if amount ≤ 0 then .error errInvalidAmount
  else
    let balance := selectBalance st.accounts id
    if balance < amount then .error errInvalidAmount
    else
      let balance := balance - amount
      .ok (addTransaction { st with accounts := updateBalance st.accounts id balance }
            "Withdraw" id id amount)

/-- `func (s *PostgresStorage) Transfer(fromId int, toId int, amount int) error`:
reject `amount <= 0`, read both balances, reject `fromBalance-amount < 0`,
then write `fromBalance-amount` to fromId, write `toBalance+amount` to
toId, and append a record whose transaction_type is the literal string
"Deposit" (as in the source, line 386), with from = fromId, to = toId. -/
def Transfer (st : Store) (fromId toId : Int) (amount : Int) : Except String Store :=
  if amount ≤ 0 then .error errInvalidAmount
  else
    let fromBalance := selectBalance st.accounts fromId
    let toBalance := selectBalance st.accounts toId
    if fromBalance - amount < 0 then .error errInvalidAmount
    else
      let fromBalance := fromBalance - amount
      let toBalance := toBalance + amount
      let accounts := updateBalance st.accounts fromId fromBalance
      let accounts := updateBalance accounts toId toBalance
      .ok (addTransaction { st with accounts := accounts } "Deposit" fromId toId amount)

/-- The per-row view built in the `rows.Next()` loop of ListTransactions:
a fresh zero-valued TransactionResponse whose FromId/ToId are only filled
in when `fromId != toId`. -/
def toResponse (t : Transaction) : TransactionResponse :=
  if t.fromId = t.toId then
    { id := t.id, transactionType := t.transactionType, fromId := 0, toId := 0, amount := t.amount }
  else
    { id := t.id, transactionType := t.transactionType, fromId := t.fromId, toId := t.toId, amount := t.amount }

/-- `func (s *PostgresStorage) ListTransactions(id int)`:
`SELECT * FROM transactions WHERE from_id = $1 OR to_id = $1` with no
ORDER BY.  PostgreSQL gives no ordering guarantee for a query without
ORDER BY, so the embedding is relational: a list is an admissible result
of the function exactly when it is the row-by-row conversion (the scan
loop above) of SOME ordering — a permutation — of the rows matching the
WHERE clause. -/
def IsListTransactionsResult (st : Store) (id : Int)
    (res : List TransactionResponse) : Prop :=
  ∃ rows : List Transaction,
    rows.Perm (st.transactions.filter (fun t => decide (t.fromId = id ∨ t.toId = id))) ∧
    res = rows.map toResponse

/-- The pgx Scan error produced when the number of selected columns does
not match the number of scan destinations, as happens in GetTransaction
(9 columns of an `accounts` row scanned into 6 destinations). -/
def errScanMismatch : String := "number of field descriptions must equal number of destinations, got 9 and 6"

/-- `func (s *PostgresStorage) GetTransaction(id int, transactionId int)`:
the code runs `SELECT * FROM accounts WHERE id = $1` with $1 =
transactionId — it queries the ACCOUNTS table, not `transactions`.  Every
`accounts` row has 9 columns, so `rows.Scan` into the 6 fields of a
TransactionResponse fails on the first matching row and that error is
returned; when no account row has that id, the loop body never runs and
the zero-valued response is returned with a nil error.  The
`fromId != id && toId != id` access check inside the loop is unreachable. -/
def GetTransaction (st : Store) (id : Int) (transactionId : Int) :
    Except String TransactionResponse :=
  if st.accounts.any (fun a => a.id = transactionId) then
    .error errScanMismatch
  else
    .ok { id := 0, transactionType := "", fromId := 0, toId := 0, amount := 0 }

/-! ### Helper lemmas about the balance read and write primitives -/

theorem scanBalanceLoop_no_match (l : List Account) (id acc : Int)
    (h : ∀ a ∈ l, a.id ≠ id) : scanBalanceLoop l id acc = acc := by
  induction l generalizing acc with
  | nil => rfl
  | cons a t ih =>
    simp only [scanBalanceLoop]
    rw [if_neg (h a (List.mem_cons_self a t))]
    exact ih acc fun b hb => h b (List.mem_cons_of_mem a hb)

theorem updateBalance_no_match (l : List Account) (id b : Int)
    (h : ∀ a ∈ l, a.id ≠ id) : updateBalance l id b = l := by
  induction l with
  | nil => rfl
  | cons a t ih =>
    simp only [updateBalance, List.map_cons]
    rw [if_neg (h a (List.mem_cons_self a t))]
    have := ih fun b hb => h b (List.mem_cons_of_mem a hb)
    simp only [updateBalance] at this
    rw [this]

theorem scanBalanceLoop_updateBalance_self (l : List Account) (id b acc : Int)
    (h : ∃ a ∈ l, a.id = id) :
    scanBalanceLoop (updateBalance l id b) id acc = b := by
  induction l generalizing acc with
  | nil => exact absurd h (by simp)
  | cons a t ih =>
    simp only [updateBalance, List.map_cons, scanBalanceLoop]
    by_cases ha : a.id = id
    · rw [if_pos ha]
      simp only [ha, if_pos rfl]
      by_cases ht : ∃ x ∈ t, x.id = id
      · have := ih b ht
        simpa only [updateBalance] using this
      · push_neg at ht
        have h1 : updateBalance t id b = t := updateBalance_no_match t id b ht
        simp only [updateBalance] at h1
        rw [h1]
        exact scanBalanceLoop_no_match t id b ht
    · rw [if_neg ha, if_neg ha]
      obtain ⟨x, hx, hxid⟩ := h
      rcases List.mem_cons.mp hx with rfl | hxt
      · exact absurd hxid ha
      · have := ih acc ⟨x, hxt, hxid⟩
        simpa only [updateBalance] using this

theorem scanBalanceLoop_updateBalance_other (l : List Account) (id id' b acc : Int)
    (hne : id' ≠ id) :
    scanBalanceLoop (updateBalance l id' b) id acc = scanBalanceLoop l id acc := by
  induction l generalizing acc with
  | nil => rfl
  | cons a t ih =>
    simp only [updateBalance, List.map_cons, scanBalanceLoop]
    by_cases ha : a.id = id'
    · rw [if_pos ha]
      have haid : ¬ a.id = id := fun hc => hne (ha ▸ hc)
      simp only [ha, if_neg hne, if_neg haid]
      have := ih acc
      simpa only [updateBalance] using this
    · rw [if_neg ha]
      have := ih (if a.id = id then a.balance else acc)
      simpa only [updateBalance] using this

theorem scanBalanceLoop_nonneg : ∀ (l : List Account) (id acc : Int),
    (∀ a ∈ l, 0 ≤ a.balance) → 0 ≤ acc → 0 ≤ scanBalanceLoop l id acc := by
  intro l
  induction l with
  | nil => intro id acc _ hacc; exact hacc
  | cons a t ih =>
    intro id acc hl hacc
    simp only [scanBalanceLoop]
    refine ih id _ (fun b hb => hl b (List.mem_cons_of_mem a hb)) ?_
    by_cases ha : a.id = id
    · rw [if_pos ha]; exact hl a (List.mem_cons_self a t)
    · rw [if_neg ha]; exact hacc

theorem updateBalance_nonneg (l : List Account) (id b : Int)
    (hl : ∀ a ∈ l, 0 ≤ a.balance) (hb : 0 ≤ b) :
    ∀ x ∈ updateBalance l id b, 0 ≤ x.balance := by
  intro x hx
  simp only [updateBalance, List.mem_map] at hx
  obtain ⟨a, ha, rfl⟩ := hx
  by_cases h : a.id = id
  · rw [if_pos h]; exact hb
  · rw [if_neg h]; exact hl a ha

theorem exists_id_updateBalance (l : List Account) (id id' b : Int)
    (h : ∃ a ∈ l, a.id = id) : ∃ a ∈ updateBalance l id' b, a.id = id := by
  obtain ⟨a, ha, hid⟩ := h
  simp only [updateBalance]
  refine ⟨if a.id = id' then { a with balance := b } else a,
    List.mem_map_of_mem _ ha, ?_⟩
  by_cases h' : a.id = id'
  · rw [if_pos h']; exact hid
  · rw [if_neg h']; exact hid

theorem id_mem_updateBalance (l : List Account) (id b : Int)
    (x : Account) (hx : x ∈ updateBalance l id b) :
    ∃ a ∈ l, x.id = a.id := by
  simp only [updateBalance, List.mem_map] at hx
  obtain ⟨a, ha, rfl⟩ := hx
  refine ⟨a, ha, ?_⟩
  by_cases h : a.id = id
  · rw [if_pos h]
  · rw [if_neg h]

theorem scanBalanceLoop_append (l₁ l₂ : List Account) (id acc : Int) :
    scanBalanceLoop (l₁ ++ l₂) id acc = scanBalanceLoop l₂ id (scanBalanceLoop l₁ id acc) := by
  induction l₁ generalizing acc with
  | nil => rfl
  | cons a t ih => simp only [List.cons_append, scanBalanceLoop, List.append_eq, ih]

/-- The accounts component of `addTransaction` is untouched. -/
theorem addTransaction_accounts (st : Store) (ty : String) (f t a : Int) :
    (addTransaction st ty f t a).accounts = st.accounts := rfl

/-! ### Characterization of the success branches of the three money moves -/

theorem Deposit_ok_elim (st : Store) (id amount : Int) (st' : Store)
    (h : Deposit st id amount = .ok st') :
    0 < amount ∧
    st' = addTransaction
      { st with accounts := updateBalance st.accounts id (selectBalance st.accounts id + amount) }
      "Deposit" id id amount := by
  simp only [Deposit] at h
  split at h
  · exact absurd h (by simp)
  next h1 =>
    refine ⟨by omega, ?_⟩
    injection h with h2
    exact h2.symm

theorem Withdraw_ok_elim (st : Store) (id amount : Int) (st' : Store)
    (h : Withdraw st id amount = .ok st') :
    0 < amount ∧ amount ≤ selectBalance st.accounts id ∧
    st' = addTransaction
      { st with accounts := updateBalance st.accounts id (selectBalance st.accounts id - amount) }
      "Withdraw" id id amount := by
  simp only [Withdraw] at h
  split at h
  · exact absurd h (by simp)
  next h1 =>
    split at h
    · exact absurd h (by simp)
    next h2 =>
      refine ⟨by omega, by omega, ?_⟩
      injection h with h3
      exact h3.symm

theorem Transfer_ok_elim (st : Store) (fromId toId amount : Int) (st' : Store)
    (h : Transfer st fromId toId amount = .ok st') :
    0 < amount ∧ amount ≤ selectBalance st.accounts fromId ∧
    st' = addTransaction
      { st with accounts := updateBalance (updateBalance st.accounts fromId (selectBalance st.accounts fromId - amount)) toId (selectBalance st.accounts toId + amount) }
      "Deposit" fromId toId amount := by
  simp only [Transfer] at h
  split at h
  · exact absurd h (by simp)
  next h1 =>
    split at h
    · exact absurd h (by simp)
    next h2 =>
      refine ⟨by omega, by omega, ?_⟩
      injection h with h3
      exact h3.symm

/-! ### Claim theorems -/

/-- C1: a successful Transfer between two distinct accounts that are both
present in the store conserves the sum of the two balances:
fromBalance_after + toBalance_after = fromBalance_before + toBalance_before. -/
theorem c1_transfer_conserves_sum (st st' : Store) (fromId toId amount : Int)
    (hne : fromId ≠ toId)
    (hfrom : ∃ a ∈ st.accounts, a.id = fromId)
    (hto : ∃ a ∈ st.accounts, a.id = toId)
    (hok : Transfer st fromId toId amount = .ok st') :
    selectBalance st'.accounts fromId + selectBalance st'.accounts toId =
      selectBalance st.accounts fromId + selectBalance st.accounts toId := by
  obtain ⟨-, -, rfl⟩ := Transfer_ok_elim st fromId toId amount st' hok
  rw [addTransaction_accounts]
  have e1 : selectBalance
      (updateBalance
        (updateBalance st.accounts fromId (selectBalance st.accounts fromId - amount))
        toId (selectBalance st.accounts toId + amount)) fromId =
      selectBalance st.accounts fromId - amount := by
    rw [selectBalance, scanBalanceLoop_updateBalance_other _ _ _ _ _ (Ne.symm hne)]
    exact scanBalanceLoop_updateBalance_self _ _ _ _ hfrom
  have e2 : selectBalance
      (updateBalance
        (updateBalance st.accounts fromId (selectBalance st.accounts fromId - amount))
        toId (selectBalance st.accounts toId + amount)) toId =
      selectBalance st.accounts toId + amount :=
    scanBalanceLoop_updateBalance_self _ _ _ _ (exists_id_updateBalance _ _ _ _ hto)
  rw [e1, e2]
  omega

/-- C1 witness: Transfer(1, 2, 40) on balances 100 and 5 succeeds and the
sum of the two balances is unchanged (60 + 45 = 100 + 5). -/
theorem c1_witness :
    selectBalance (Store.mk [⟨1, 60⟩, ⟨2, 45⟩] [⟨1, "Deposit", 1, 2, 40⟩]).accounts 1 +
      selectBalance (Store.mk [⟨1, 60⟩, ⟨2, 45⟩] [⟨1, "Deposit", 1, 2, 40⟩]).accounts 2 =
    selectBalance (Store.mk [⟨1, 100⟩, ⟨2, 5⟩] []).accounts 1 +
      selectBalance (Store.mk [⟨1, 100⟩, ⟨2, 5⟩] []).accounts 2 :=
  c1_transfer_conserves_sum ⟨[⟨1, 100⟩, ⟨2, 5⟩], []⟩ ⟨[⟨1, 60⟩, ⟨2, 45⟩], [⟨1, "Deposit", 1, 2, 40⟩]⟩
    1 2 40 (by decide) (by decide) (by decide) rfl

/-- Every balance in the store is non-negative. -/
def AllBalancesNonneg (st : Store) : Prop := ∀ a ∈ st.accounts, 0 ≤ a.balance

/-- C6: starting from a store in which every balance is non-negative, any
successful Deposit, Withdraw or Transfer leaves every balance
non-negative.  A failed operation returns an error without producing a
new store (every `.error` return in the code happens before any UPDATE),
so the invariant trivially survives failures as well. -/
theorem c6_balances_stay_nonneg (st : Store) (h : AllBalancesNonneg st) :
    (∀ id amount st', Deposit st id amount = .ok st' → AllBalancesNonneg st') ∧
    (∀ id amount st', Withdraw st id amount = .ok st' → AllBalancesNonneg st') ∧
    (∀ fromId toId amount st', Transfer st fromId toId amount = .ok st' → AllBalancesNonneg st') := by
  refine ⟨?_, ?_, ?_⟩
  · intro id amount st' hok
    obtain ⟨hpos, rfl⟩ := Deposit_ok_elim st id amount st' hok
    intro a ha
    rw [addTransaction_accounts] at ha
    refine updateBalance_nonneg _ _ _ h ?_ a ha
    have := scanBalanceLoop_nonneg st.accounts id 0 h le_rfl
    rw [selectBalance]
    omega
  · intro id amount st' hok
    obtain ⟨hpos, hle, rfl⟩ := Withdraw_ok_elim st id amount st' hok
    intro a ha
    rw [addTransaction_accounts] at ha
    exact updateBalance_nonneg _ _ _ h (by omega) a ha
  · intro fromId toId amount st' hok
    obtain ⟨hpos, hle, rfl⟩ := Transfer_ok_elim st fromId toId amount st' hok
    intro a ha
    rw [addTransaction_accounts] at ha
    have hmid : ∀ x ∈ updateBalance st.accounts fromId (selectBalance st.accounts fromId - amount),
        0 ≤ x.balance :=
      updateBalance_nonneg _ _ _ h (by omega)
    refine updateBalance_nonneg _ _ _ hmid ?_ a ha
    have := scanBalanceLoop_nonneg st.accounts toId 0 h le_rfl
    rw [selectBalance]
    omega

/-- C6 witness: the invariant theorem applied to the concrete store with
one account of balance 0 and Deposit(1, 5). -/
theorem c6_witness : AllBalancesNonneg ⟨[⟨1, 5⟩], [⟨1, "Deposit", 1, 1, 5⟩]⟩ :=
  (c6_balances_stay_nonneg ⟨[⟨1, 0⟩], []⟩
      (by intro a ha; rw [List.mem_singleton] at ha; subst ha; decide)).1 1 5
    ⟨[⟨1, 5⟩], [⟨1, "Deposit", 1, 1, 5⟩]⟩ rfl

/-- C8: Deposit, Withdraw and Transfer all reject `amount ≤ 0` with the
"invalid amount" error.  The conclusion does not depend on the store at
all — the check is the first statement of each function, before any
query — so no balance is read or written and no transaction is appended. -/
theorem c8_nonpositive_amount_rejected (st : Store) (id fromId toId amount : Int)
    (h : amount ≤ 0) :
    Deposit st id amount = .error errInvalidAmount ∧
    Withdraw st id amount = .error errInvalidAmount ∧
    Transfer st fromId toId amount = .error errInvalidAmount := by
  refine ⟨?_, ?_, ?_⟩ <;> simp [Deposit, Withdraw, Transfer, h]

/-- C8 witness: amount 0 and amount -7 on a concrete store. -/
theorem c8_witness :
    Deposit ⟨[⟨1, 100⟩], []⟩ 1 0 = .error errInvalidAmount ∧
    Withdraw ⟨[⟨1, 100⟩], []⟩ 1 0 = .error errInvalidAmount ∧
    Transfer ⟨[⟨1, 100⟩], []⟩ 1 2 0 = .error errInvalidAmount :=
  c8_nonpositive_amount_rejected ⟨[⟨1, 100⟩], []⟩ 1 1 2 0 (by decide)

/-- C3: evaluation of the self-transfer Transfer(1, 1, 50) on a store in
which account 1 has balance 100: the operation succeeds but leaves the
balance at 150.  Both reads hit the same row (fromBalance = toBalance =
100), and the second UPDATE (balance 100 + 50 for the to-side) overwrites
the first (balance 100 - 50 for the from-side), so the account is
credited the amount instead of keeping its balance — money is created,
not conserved. -/
theorem c3_self_transfer_creates_money :
    Transfer ⟨[⟨1, 100⟩], []⟩ 1 1 50 = .ok ⟨[⟨1, 150⟩], [⟨1, "Deposit", 1, 1, 50⟩]⟩ ∧
    selectBalance [(⟨1, 150⟩ : Account)] 1 ≠ selectBalance [(⟨1, 100⟩ : Account)] 1 :=
  ⟨rfl, by decide⟩

/-- C4: evaluated at Transfer(1, 2, 50) with balances 100 and 0, the
successful transfer appends exactly one record whose from_id is 1 and
to_id is 2 as claimed, but its transaction_type is the literal string
"Deposit" (storage.go line 386 passes "Deposit" to addTransaction), not
"Transfer". -/
theorem c4_transfer_record_kind_is_deposit :
    Transfer ⟨[⟨1, 100⟩, ⟨2, 0⟩], []⟩ 1 2 50 =
      .ok ⟨[⟨1, 50⟩, ⟨2, 50⟩], [⟨1, "Deposit", 1, 2, 50⟩]⟩ ∧
    (∀ t ∈ [(⟨1, "Deposit", 1, 2, 50⟩ : Transaction)], t.transactionType ≠ "Transfer") :=
  ⟨rfl, by decide⟩

/-- C5 counterexample: Withdraw(1, 10) on balance 5 fails with exactly the
same error value that Withdraw(1, -1) produces — the generic "invalid
amount" message — and the transfer case behaves the same, so the claimed
distinct InsufficientFunds error kind does not exist in the code. -/
theorem c5_counterexample :
    Withdraw ⟨[⟨1, 5⟩], []⟩ 1 10 = Withdraw ⟨[⟨1, 5⟩], []⟩ 1 (-1) ∧
    Withdraw ⟨[⟨1, 5⟩], []⟩ 1 10 = .error errInvalidAmount ∧
    Transfer ⟨[⟨1, 5⟩, ⟨2, 0⟩], []⟩ 1 2 10 = .error errInvalidAmount :=
  ⟨rfl, rfl, rfl⟩

/-- C5 amended: Withdraw and Transfer with a positive amount exceeding
the (source) account's current balance fail — with the same generic
"invalid amount" error the code uses for non-positive amounts, not a
distinct InsufficientFunds error — and the failure happens before any
UPDATE or INSERT, so every balance is left unchanged and no transaction
record is appended (an `.error` result carries no mutated store). -/
theorem c5_insufficient_funds_fails (st : Store) (id fromId toId amount : Int)
    (hpos : 0 < amount)
    (hw : selectBalance st.accounts id < amount)
    (ht : selectBalance st.accounts fromId < amount) :
    Withdraw st id amount = .error errInvalidAmount ∧
    Transfer st fromId toId amount = .error errInvalidAmount := by
  constructor
  · simp only [Withdraw]
    rw [if_neg (by omega), if_pos hw]
  · simp only [Transfer]
    rw [if_neg (by omega), if_pos (by omega)]

/-- C5 witness: Withdraw(1, 10) and Transfer(1, 2, 10) with source
balance 5. -/
theorem c5_witness :
    Withdraw ⟨[⟨1, 5⟩, ⟨2, 0⟩], []⟩ 1 10 = .error errInvalidAmount ∧
    Transfer ⟨[⟨1, 5⟩, ⟨2, 0⟩], []⟩ 1 2 10 = .error errInvalidAmount :=
  c5_insufficient_funds_fails ⟨[⟨1, 5⟩, ⟨2, 0⟩], []⟩ 1 1 2 10 (by decide) (by decide) (by decide)

/-- C7: GetTransaction runs its query against the ACCOUNTS table with the
transaction id as the key.  On a store where transaction 1 involves only
account 1, the non-participant account 2 calling GetTransaction(2, 1)
gets the pgx scan arity error (because an account row with id 1 exists
and its nine columns cannot be scanned into six destinations), not
"access denied"; and GetTransaction(2, 5) — no transaction 5 exists, and
no account 5 either — succeeds with a zero-valued record instead of
failing.  The access-denied branch of the code is unreachable. -/
theorem c7_get_transaction_wrong_table :
    GetTransaction ⟨[⟨1, 100⟩, ⟨2, 50⟩], [⟨1, "Deposit", 1, 1, 50⟩]⟩ 2 1 = .error errScanMismatch ∧
    errScanMismatch ≠ errAccessDenied ∧
    GetTransaction ⟨[⟨1, 100⟩, ⟨2, 50⟩], [⟨1, "Deposit", 1, 1, 50⟩]⟩ 2 5 =
      .ok ⟨0, "", 0, 0, 0⟩ :=
  ⟨rfl, by decide, rfl⟩

/-- C9 counterexample: on a log whose transactions 1 and 2 both involve
account 1, the reversed order — view of transaction 2 before view of
transaction 1 — is an admissible result of the ORDER-BY-less SELECT, and
its identifiers are not ascending: the code does not guarantee the
ordering the claim asserts. -/
theorem c9_counterexample :
    IsListTransactionsResult ⟨[], [⟨1, "Deposit", 1, 1, 5⟩, ⟨2, "Withdraw", 1, 1, 3⟩]⟩ 1
      [toResponse ⟨2, "Withdraw", 1, 1, 3⟩, toResponse ⟨1, "Deposit", 1, 1, 5⟩] ∧
    ¬ ([toResponse ⟨2, "Withdraw", 1, 1, 3⟩, toResponse ⟨1, "Deposit", 1, 1, 5⟩].Pairwise
        (fun r s => r.id < s.id)) :=
  ⟨⟨[⟨2, "Withdraw", 1, 1, 3⟩, ⟨1, "Deposit", 1, 1, 5⟩], by decide, rfl⟩, by decide⟩

/-- C9 amended: every result the ORDER-BY-less query can return consists
of exactly the views of the transactions in which the account
participates as source or destination — every participating
transaction's view appears, and every returned view comes from a
participating transaction — but in an unspecified order: ascending
identifier order is not guaranteed. -/
theorem c9_list_transactions_membership (st : Store) (id : Int)
    (res : List TransactionResponse) (h : IsListTransactionsResult st id res) :
    (∀ t ∈ st.transactions, (t.fromId = id ∨ t.toId = id) → toResponse t ∈ res) ∧
    (∀ r ∈ res, ∃ t ∈ st.transactions, (t.fromId = id ∨ t.toId = id) ∧ r = toResponse t) := by
  obtain ⟨rows, hperm, rfl⟩ := h
  constructor
  · intro t ht hpart
    exact List.mem_map_of_mem _
      (hperm.symm.subset (List.mem_filter.mpr ⟨ht, by simpa using hpart⟩))
  · intro r hr
    obtain ⟨t, ht, rfl⟩ := List.mem_map.mp hr
    obtain ⟨ht1, ht2⟩ := List.mem_filter.mp (hperm.subset ht)
    exact ⟨t, ht1, by simpa using ht2, rfl⟩

/-- C9 witness: the amended theorem applied to a concrete admissible
result (here the storage-order one) on a log where account 1
participates in both transactions. -/
theorem c9_witness :
    toResponse ⟨1, "Deposit", 1, 1, 5⟩ ∈
      [toResponse ⟨1, "Deposit", 1, 1, 5⟩, toResponse ⟨2, "Withdraw", 1, 1, 3⟩] :=
  (c9_list_transactions_membership
      ⟨[], [⟨1, "Deposit", 1, 1, 5⟩, ⟨2, "Withdraw", 1, 1, 3⟩]⟩ 1
      [toResponse ⟨1, "Deposit", 1, 1, 5⟩, toResponse ⟨2, "Withdraw", 1, 1, 3⟩]
      ⟨[⟨1, "Deposit", 1, 1, 5⟩, ⟨2, "Withdraw", 1, 1, 3⟩], by decide, rfl⟩).1
    ⟨1, "Deposit", 1, 1, 5⟩ (by decide) (by decide)

/-- Intro form of the success branch of Transfer. -/
theorem Transfer_ok_intro (st : Store) (fromId toId amount : Int)
    (h1 : ¬ amount ≤ 0) (h2 : ¬ selectBalance st.accounts fromId - amount < 0) :
    Transfer st fromId toId amount = .ok (addTransaction
      { st with accounts := updateBalance (updateBalance st.accounts fromId (selectBalance st.accounts fromId - amount)) toId (selectBalance st.accounts toId + amount) }
      "Deposit" fromId toId amount) := by
  simp only [Transfer]
  rw [if_neg h1, if_neg h2]

theorem updateBalance_append (l₁ l₂ : List Account) (id b : Int) :
    updateBalance (l₁ ++ l₂) id b = updateBalance l₁ id b ++ updateBalance l₂ id b := by
  simp only [updateBalance, List.map_append]

theorem updateBalance_cons_match (a : Account) (l : List Account) (id b : Int)
    (h : a.id = id) :
    updateBalance (a :: l) id b = { a with balance := b } :: updateBalance l id b := by
  simp only [updateBalance, List.map_cons, if_pos h]

/-- Total money in the store: the sum of all account balances. -/
def totalBalance (accounts : List Account) : Int :=
  (accounts.map (fun a => a.balance)).sum

/-- C10: a Transfer whose source id matches exactly one account row, with
sufficient balance, but whose destination id matches no row at all,
succeeds anyway: the source row is debited, the destination UPDATE
matches nothing so nobody is credited, a transaction record is still
appended, and the total of all balances drops by the amount. -/
theorem c10_transfer_to_missing_destination
    (st : Store) (l₁ l₂ : List Account) (a₀ : Account) (fromId toId amount : Int)
    (hsplit : st.accounts = l₁ ++ a₀ :: l₂) (hid : a₀.id = fromId)
    (h₁ : ∀ a ∈ l₁, a.id ≠ fromId) (h₂ : ∀ a ∈ l₂, a.id ≠ fromId)
    (hto : ∀ a ∈ st.accounts, a.id ≠ toId)
    (hamt : 0 < amount) (hbal : amount ≤ a₀.balance) :
    Transfer st fromId toId amount =
      .ok ⟨l₁ ++ { a₀ with balance := a₀.balance - amount } :: l₂,
           st.transactions ++ [⟨st.transactions.length + 1, "Deposit", fromId, toId, amount⟩]⟩ ∧
    totalBalance (l₁ ++ { a₀ with balance := a₀.balance - amount } :: l₂) =
      totalBalance st.accounts - amount := by
  have hfromBal : selectBalance st.accounts fromId = a₀.balance := by
    rw [hsplit, selectBalance, scanBalanceLoop_append, scanBalanceLoop_no_match l₁ _ _ h₁]
    simp only [scanBalanceLoop]
    rw [if_pos hid]
    exact scanBalanceLoop_no_match l₂ _ _ h₂
  have htoBal : selectBalance st.accounts toId = 0 := by
    rw [selectBalance]
    exact scanBalanceLoop_no_match _ _ _ hto
  have hmem : ∀ a ∈ l₁ ++ a₀ :: l₂, a.id ≠ toId := by
    rw [← hsplit]; exact hto
  have hupd1 : updateBalance st.accounts fromId (a₀.balance - amount) =
      l₁ ++ { a₀ with balance := a₀.balance - amount } :: l₂ := by
    rw [hsplit, updateBalance_append, updateBalance_cons_match _ _ _ _ hid,
      updateBalance_no_match l₁ _ _ h₁, updateBalance_no_match l₂ _ _ h₂]
  have hLall : ∀ a ∈ l₁ ++ { a₀ with balance := a₀.balance - amount } :: l₂, a.id ≠ toId := by
    intro a ha
    rcases List.mem_append.mp ha with h | h
    · exact hmem a (List.mem_append_left _ h)
    · rcases List.mem_cons.mp h with rfl | h
      · exact hmem a₀ (List.mem_append_right _ (List.mem_cons_self _ _))
      · exact hmem a (List.mem_append_right _ (List.mem_cons_of_mem _ h))
  have key := Transfer_ok_intro st fromId toId amount (by omega) (by rw [hfromBal]; omega)
  rw [hfromBal, htoBal, hupd1, updateBalance_no_match _ toId _ hLall] at key
  refine ⟨key, ?_⟩
  rw [hsplit]
  simp only [totalBalance, List.map_append, List.sum_append, List.map_cons, List.sum_cons]
  omega

/-- C10 witness: Transfer(1, 2, 30) on a store whose only account is 1
with balance 100 — account 2 does not exist; 30 units vanish. -/
theorem c10_witness :
    Transfer ⟨[⟨1, 100⟩], []⟩ 1 2 30 = .ok ⟨[⟨1, 70⟩], [⟨1, "Deposit", 1, 2, 30⟩]⟩ ∧
    totalBalance [(⟨1, 70⟩ : Account)] = totalBalance [(⟨1, 100⟩ : Account)] - 30 :=
  c10_transfer_to_missing_destination ⟨[⟨1, 100⟩], []⟩ [] [] ⟨1, 100⟩ 1 2 30 rfl rfl
    (by decide) (by decide) (by decide) (by decide) (by decide)

/-! ### Interleaving model for concurrent Deposit/Withdraw on one account
(claim C2).  Deposit and Withdraw each issue a SELECT of the balance and
then an unconditional UPDATE computed from the captured value — there is
no compare-and-set and no transaction around the two queries — so the two
queries are modelled as two separately schedulable atomic steps. -/

/-- The kind of a single-account money operation. -/
inductive DWKind
  | deposit
  | withdraw
deriving DecidableEq

/-- One in-flight Deposit/Withdraw call on the shared account: kind and
amount, the balance its SELECT captured (none before the read step), and
its outcome (none while running, some true = committed, some false =
rejected). -/
structure DWOp where
  kind : DWKind
  amount : Int
  readVal : Option Int
  result : Option Bool
deriving DecidableEq

/-- The two scheduler-visible phases of the code: the `amount <= 0`
validation plus the SELECT of the balance, and the UPDATE that writes the
value computed from the captured read (Withdraw checks
`balance < amount` against the captured value between its SELECT and its
UPDATE, as the code does). -/
inductive DWPhase
  | read
  | write
deriving DecidableEq

/-- The shared account balance plus the per-operation bookkeeping. -/
structure ConcState where
  balance : Int
  ops : List DWOp
deriving DecidableEq

/-- One atomic step of the operation at index `i`: `read` validates the
amount and captures the current balance; `write` commits
`captured ± amount` with a plain `UPDATE accounts SET balance = $1` — no
comparison against the balance at commit time. -/
def doStep (s : ConcState) (i : Nat) (ph : DWPhase) : ConcState :=
  match s.ops.get? i with
  | none => s
  | some op =>
    match ph with
    | .read =>
      if op.amount ≤ 0 then
        { s with ops := s.ops.set i { op with result := some false } }
      else
        { s with ops := s.ops.set i { op with readVal := some s.balance } }
    | .write =>
      match op.readVal, op.result with
      | some r, none =>
        match op.kind with
        | .deposit =>
          { balance := r + op.amount, ops := s.ops.set i { op with result := some true } }
        | .withdraw =>
          if r < op.amount then
            { s with ops := s.ops.set i { op with result := some false } }
          else
            { balance := r - op.amount, ops := s.ops.set i { op with result := some true } }
      | _, _ => s

/-- Run a whole schedule: a list of (operation index, phase) pairs. -/
def runSchedule (s : ConcState) (sched : List (Nat × DWPhase)) : ConcState :=
  sched.foldl (fun s' step => doStep s' step.1 step.2) s

/-- Sum of the amounts of the committed operations of kind `k`. -/
def sumSuccessful (ops : List DWOp) (k : DWKind) : Int :=
  ops.foldl (fun acc op => if op.result = some true ∧ op.kind = k then acc + op.amount else acc) 0

/-- The state after interleaving two Deposits of 10 on one account with
balance 0 so that both SELECTs run before either UPDATE — a schedule the
code admits because nothing orders the two queries of one call against
the other call. -/
def c2Final : ConcState :=
  runSchedule ⟨0, [⟨.deposit, 10, none, none⟩, ⟨.deposit, 10, none, none⟩]⟩
    [(0, .read), (1, .read), (0, .write), (1, .write)]

/-- C2: under the interleaving in which both deposits read before either
writes, both operations report success, so the claim demands a final
balance of 0 + 10 + 10 = 20, yet the code commits 10: the second UPDATE,
computed from the stale read, silently overwrites the first — a lost
update, possible precisely because each operation is a plain read
followed by an unconditional write. -/
theorem c2_lost_update :
    (∀ op ∈ c2Final.ops, op.result = some true) ∧
    sumSuccessful c2Final.ops DWKind.deposit = 20 ∧
    sumSuccessful c2Final.ops DWKind.withdraw = 0 ∧
    c2Final.balance = 10 ∧
    c2Final.balance ≠
      0 + sumSuccessful c2Final.ops DWKind.deposit - sumSuccessful c2Final.ops DWKind.withdraw := by
  decide

end BankApi
